import Mathlib

/-!
Verification development for the FlexiShelf shelf-planogram engine.

Shallow embedding of `shelf/models.py`, `shelf/services.py` and
`shelf/management/commands/fix_overlaps.py`.  Coordinates (cm) are modelled
as rationals; Python floats passed through `Decimal(str(v))` denote exact
decimal values, which ℚ represents exactly.  Violation messages are
modelled by an inductive type with one constructor per `errors.append`
site in the source.
-/

namespace FlexiShelf

/-- Embeds `round_decimal` from `shelf/models.py` (lines 11-13):
`float(Decimal(str(value)).quantize(Decimal(0.1), rounding=ROUND_HALF_UP))`.
`ROUND_HALF_UP` rounds to the nearest multiple of 1/10 with ties going
away from zero, hence the sign split. -/
def round_decimal (v : ℚ) : ℚ :=
  if v < 0 then -((⌊(-v) * 10 + 1/2⌋ : ℚ) / 10)
  else ((⌊v * 10 + 1/2⌋ : ℚ) / 10)

/-- The overlap tolerance used by `_find_overlapping_placement` and
`fix_overlaps.py` (`tolerance = 0.05`). -/
def tolerance : ℚ := 1/20

/-- Embeds `Product` (`shelf/models.py`): the fields the placement engine reads. -/
structure Product where
  name : String
  width : ℚ
  height : ℚ
deriving DecidableEq

/-- Embeds `Product.get_occupied_width` (`shelf/models.py` lines 38-40):
`round_decimal(self.width * face_count)`. -/
def get_occupied_width (p : Product) (face_count : ℤ) : ℚ :=
  round_decimal (p.width * (face_count : ℚ))

/-- Embeds `ProductPlacement` (`shelf/models.py`): the fields the engine reads.
`shelf`/`segment` foreign keys are supplied to each operation as the
shelf width, segment height and the list of the placements of the segment. -/
structure ProductPlacement where
  id : ℕ
  product : Product
  x_position : ℚ
  face_count : ℤ
  occupied_width : ℚ
  placement_order : ℤ
deriving DecidableEq

/-- Violation messages, one constructor per `errors.append` site of
`services.py` / `models.py` (the Japanese message texts are abstracted to
their identity; `overlapsWith` carries the name of the conflicting product that
the message interpolates). -/
inductive Violation where
  | heightExceeds
  | widthExceeds
  | negativeX
  | overlapsWith (name : String)
  | faceTooFew
  | faceTooMany
  | internalError
deriving DecidableEq

/-- Embeds `ProductPlacement.save` (`shelf/models.py` lines 143-150): before the row
is written, `x_position` is re-rounded and `occupied_width` is recomputed
from the product, overwriting whatever the caller stored in those fields. -/
def save (p : ProductPlacement) : ProductPlacement :=
  { p with
    x_position := round_decimal p.x_position,
    occupied_width := get_occupied_width p.product p.face_count }

/-- The interval of a placement from its rounded start and end positions, as
computed in `find_overlaps_in_segment` (`fix_overlaps.py` lines 85-90) and
`get_placement_ranges` (`models.py` lines 109-117):
`start = round_decimal(x_position)`, `end = round_decimal(start + occupied_width)`. -/
def placement_interval (p : ProductPlacement) : ℚ × ℚ :=
  (round_decimal p.x_position,
   round_decimal (round_decimal p.x_position + p.occupied_width))

/-- The tolerance-aware interval overlap predicate shared by
`_find_overlapping_placement` (`models.py` lines 195-198) and
`find_overlaps_in_segment` (`fix_overlaps.py` line 93):
`(A.end > B.start + tolerance) and (A.start < B.end - tolerance)`. -/
def is_overlapping (a b : ℚ × ℚ) : Bool :=
  decide (a.2 > b.1 + tolerance) && decide (a.1 < b.2 - tolerance)

/-- Embeds `ProductPlacement._find_overlapping_placement` (`models.py` lines
180-205) with the default `tolerance=0.05`; `others` is the queryset of the
placements of the segment excluding `p` itself, in iteration order.  the end of `p` is
recomputed from the product while the end of each other placement uses its stored
`occupied_width`, exactly as in the source. -/
def find_overlapping_placement (p : ProductPlacement)
    (others : List ProductPlacement) : Option ProductPlacement :=
  let self_start := round_decimal p.x_position
  let self_end := round_decimal (self_start + get_occupied_width p.product p.face_count)
  others.find? (fun q =>
    let other_start := round_decimal q.x_position
    let other_end := round_decimal (other_start + q.occupied_width)
    decide (self_end > other_start + tolerance) &&
    decide (self_start < other_end - tolerance))

/-- Embeds `ProductPlacement.clean` (`models.py` lines 152-178), returning the list
of violations bundled into the raised `ValidationError` (empty = no raise).
The method first normalizes `self.x_position` through `round_decimal`;
`shelf_width`/`segment_height` stand for the `shelf`/`segment` foreign key
fields and `others` for the other placements of the segment. -/
def clean (p : ProductPlacement) (others : List ProductPlacement)
    (shelf_width segment_height : ℚ) : List Violation :=
  let p := { p with x_position := round_decimal p.x_position }
  let height_errors : List Violation :=
    if p.product.height > segment_height then [Violation.heightExceeds] else []
  let required_width := get_occupied_width p.product p.face_count
  let end_position := round_decimal (p.x_position + required_width)
  let width_errors : List Violation :=
    if end_position > shelf_width then [Violation.widthExceeds] else []
  let overlap_errors : List Violation :=
    match find_overlapping_placement p others with
    | some q => [Violation.overlapsWith q.product.name]
    | none => []
  height_errors ++ width_errors ++ overlap_errors

/-- Result of `ProductPlacement.update_position`: the
in-memory state after the call, the persisted rows of the segment after the call
(`others` plus the row of this placement), the returned success flag, and the
violations joined into the returned error message. -/
structure UpdateResult where
  placement : ProductPlacement
  rows : List ProductPlacement
  success : Bool
  errors : List Violation
deriving DecidableEq

/-- Embeds `ProductPlacement.update_position` (`models.py` lines 211-241): sets
`x_position := round_decimal(new_x_position)` and
`face_count := max(1, int(new_face_count))` (when given), runs `clean`, and
on success `save`s; when `clean` raises, the old `x_position`/`face_count`
are restored in memory, `save` is never reached (row unchanged) and the
messages are returned with `success = False`. -/
def update_position (p : ProductPlacement) (others : List ProductPlacement)
    (shelf_width segment_height : ℚ)
    (new_x_position : ℚ) (new_face_count : Option ℤ) : UpdateResult :=
  let p' := { p with
    x_position := round_decimal new_x_position,
    face_count := match new_face_count with
      | some n => max 1 n
      | none => p.face_count }
  let errs := clean p' others shelf_width segment_height
  if errs.isEmpty then
    let saved := save p'
    ⟨saved, others ++ [saved], true, []⟩
  else
    ⟨p, others ++ [p], false, errs⟩

/-- Embeds `ProductPlacementService.validate_placement` (`services.py` lines
101-157), fault-free path.  `db` is the queryset
`ProductPlacement.objects.filter(segment=segment)` in iteration order; the
chained `x_position__lt` / `x_position__gte` lookups are the filter, and the
`break` after the first overlap message is `List.find?`. -/
def validate_placement (shelf_width segment_height : ℚ) (product : Product)
    (x_position : ℚ) (face_count : ℤ) (db : List ProductPlacement) :
    List Violation :=
  let errors : List Violation := []
  let errors := if product.height > segment_height
    then errors ++ [Violation.heightExceeds] else errors
  let occupied_width := product.width * (face_count : ℚ)
  let errors := if x_position + occupied_width > shelf_width
    then errors ++ [Violation.widthExceeds] else errors
  let errors := if x_position < 0
    then errors ++ [Violation.negativeX] else errors
  let overlapping_placements := db.filter (fun q =>
    decide (q.x_position < x_position + occupied_width) &&
    decide (q.x_position ≥ x_position - occupied_width))
  let errors := match overlapping_placements.find? (fun q =>
      !(decide (x_position ≥ q.x_position + q.occupied_width) ||
        decide (x_position + occupied_width ≤ q.x_position))) with
    | some q => errors ++ [Violation.overlapsWith q.product.name]
    | none => errors
  let errors := if face_count < 1 then errors ++ [Violation.faceTooFew]
    else if face_count > 20 then errors ++ [Violation.faceTooMany]
    else errors
  errors

/-- The height check of `validate_placement` in isolation
(`services.py` lines 119-121). -/
def check_height (segment_height : ℚ) (product : Product) : List Violation :=
  if product.height > segment_height then [Violation.heightExceeds] else []

/-- The shelf-width check of `validate_placement` in isolation
(`services.py` lines 126-128). -/
def check_width (shelf_width x_position occupied_width : ℚ) : List Violation :=
  if x_position + occupied_width > shelf_width then [Violation.widthExceeds] else []

/-- The nonnegative-coordinate check of `validate_placement` in isolation
(`services.py` lines 130-132). -/
def check_negative (x_position : ℚ) : List Violation :=
  if x_position < 0 then [Violation.negativeX] else []

/-- The overlap check of `validate_placement` in isolation
(`services.py` lines 134-145): queryset pre-filter, then the first
placement failing the disjoint test contributes one violation. -/
def check_overlap (x_position occupied_width : ℚ)
    (db : List ProductPlacement) : List Violation :=
  match (db.filter (fun q =>
      decide (q.x_position < x_position + occupied_width) &&
      decide (q.x_position ≥ x_position - occupied_width))).find? (fun q =>
      !(decide (x_position ≥ q.x_position + q.occupied_width) ||
        decide (x_position + occupied_width ≤ q.x_position))) with
  | some q => [Violation.overlapsWith q.product.name]
  | none => []

/-- The face-count check of `validate_placement` in isolation
(`services.py` lines 147-151). -/
def check_face (face_count : ℤ) : List Violation :=
  if face_count < 1 then [Violation.faceTooFew]
  else if face_count > 20 then [Violation.faceTooMany]
  else []

/-- The five checks of `validate_placement`, in the order the source runs
them. -/
def check_list (shelf_width segment_height : ℚ) (product : Product)
    (x_position : ℚ) (face_count : ℤ) (db : List ProductPlacement) :
    List (List Violation) :=
  [check_height segment_height product,
   check_width shelf_width x_position (product.width * (face_count : ℚ)),
   check_negative x_position,
   check_overlap x_position (product.width * (face_count : ℚ)) db,
   check_face face_count]

/-- One of the five checks inside the `try` block of `validate_placement`. -/
inductive CheckStep where
  | height
  | width
  | negative
  | overlap
  | face
deriving DecidableEq

/-- Position of a check in the source order of `validate_placement`. -/
def step_index : CheckStep → ℕ
  | .height => 0
  | .width => 1
  | .negative => 2
  | .overlap => 3
  | .face => 4

/-- Runs `validate_placement` with an unexpected internal fault injected at one of
the five checks: the `try` block stops there, keeping the violations already
appended, and the `except Exception` handler (`services.py` lines 153-155)
appends the generic 「配置検証中にエラーが発生しました」 entry before the
final `return errors` (line 157, outside the `try`).  `none` injects no
fault and gives the plain `validate_placement` result. -/
def validate_placement_with_fault (shelf_width segment_height : ℚ)
    (product : Product) (x_position : ℚ) (face_count : ℤ)
    (db : List ProductPlacement) (fault : Option CheckStep) : List Violation :=
  match fault with
  | none => validate_placement shelf_width segment_height product x_position face_count db
  | some s =>
    ((check_list shelf_width segment_height product x_position face_count db).take
      (step_index s)).flatten ++ [Violation.internalError]

/-- Embeds `ProductPlacementService.move_placement` (`services.py` lines 209-269):
the row of the placement is deleted, the new location is validated against the
remaining rows, and on violations the raised `ValidationError` makes the
surrounding `transaction.atomic` roll everything back; on success a fresh
row (auto-generated id `fresh_id`) is created at the new location and
normalized by `save`.  `occupied_width` is not passed to the `create` call
(`save` overwrites it before the row is written), modelled by `0`. -/
def move_placement (db : List ProductPlacement) (p : ProductPlacement)
    (shelf_width segment_height : ℚ) (new_x_position : ℚ)
    (new_face_count : Option ℤ) (fresh_id : ℕ) :
    Except (List Violation) (List ProductPlacement) :=
  let fc := new_face_count.getD p.face_count
  let rest := db.filter (fun q => q.id != p.id)
  let errors := validate_placement shelf_width segment_height p.product
    new_x_position fc rest
  if errors.isEmpty then
    .ok (rest ++ [save { id := fresh_id, product := p.product,
                         x_position := new_x_position, face_count := fc,
                         occupied_width := 0,
                         placement_order := p.placement_order }])
  else
    .error errors

/-- The persisted rows of the segment after `move_placement`: unchanged when the
operation raised (transaction rollback). -/
def move_placement_rows (db : List ProductPlacement) (p : ProductPlacement)
    (shelf_width segment_height : ℚ) (new_x_position : ℚ)
    (new_face_count : Option ℤ) (fresh_id : ℕ) : List ProductPlacement :=
  match move_placement db p shelf_width segment_height new_x_position
      new_face_count fresh_id with
  | .ok rows => rows
  | .error _ => db

/-- Stable insertion keeping the list sorted by `x_position` (equal keys keep
their relative order, matching the stable Python `sorted`). -/
def insert_by_x : List ProductPlacement → ProductPlacement → List ProductPlacement
  | [], p => [p]
  | q :: rest, p =>
    if q.x_position ≤ p.x_position then q :: insert_by_x rest p
    else p :: q :: rest

/-- Embeds `sorted(placements, key=lambda p: p.x_position)` as a stable sort. -/
def sort_by_x (l : List ProductPlacement) : List ProductPlacement :=
  l.foldl insert_by_x []

/-- The per-item walk of `fix_overlaps_spread` (`fix_overlaps.py` lines
180-196): `cur` is `current_x`; an item is re-saved at
`round_decimal current_x` only when that differs from its current position
by more than 0.1 cm, and `current_x` advances by the occupied width of the item (possibly
recomputed by `save`) plus the gap. -/
def spread_walk (gap : ℚ) : ℚ → List ProductPlacement → List ProductPlacement
  | _, [] => []
  | cur, p :: rest =>
    let new_x := round_decimal cur
    if |new_x - p.x_position| > 1/10 then
      let moved := save { p with x_position := new_x }
      moved :: spread_walk gap (cur + moved.occupied_width + gap) rest
    else
      p :: spread_walk gap (cur + p.occupied_width + gap) rest

/-- Embeds `Command.fix_overlaps_spread` (`fix_overlaps.py` lines 150-198) with
`dry_run=False`, returning the placements of the segment after the walk, or
`none` for the capacity error (total occupied width exceeds the shelf
width), where the command prints an error and returns before touching any
row.  `gap_per_item = (shelf.width - total_width) / len(placements)` when
there is more than one placement, else `0`; the walk starts at
`gap_per_item / 2` over the placements sorted by current `x_position`. -/
def fix_overlaps_spread (shelf_width : ℚ)
    (placements : List ProductPlacement) : Option (List ProductPlacement) :=
  let total_width := (placements.map (·.occupied_width)).sum
  if total_width > shelf_width then none
  else
    let gap_per_item := if placements.length > 1
      then (shelf_width - total_width) / (placements.length : ℚ)
      else 0
    some (spread_walk gap_per_item (gap_per_item / 2) (sort_by_x placements))

/-- The rows of the segment after running the spread strategy: unchanged when it
aborts with the capacity error. -/
def spread_rows (shelf_width : ℚ)
    (placements : List ProductPlacement) : List ProductPlacement :=
  (fix_overlaps_spread shelf_width placements).getD placements

/-- Lemma: `validate_placement` is the concatenation of its five checks in source
order: it never short-circuits between checks, and the contribution of each
contribution is independent of the others. -/
theorem validate_placement_eq_checks (shelf_width segment_height : ℚ)
    (product : Product) (x_position : ℚ) (face_count : ℤ)
    (db : List ProductPlacement) :
    validate_placement shelf_width segment_height product x_position face_count db =
      check_height segment_height product ++
      check_width shelf_width x_position (product.width * (face_count : ℚ)) ++
      check_negative x_position ++
      check_overlap x_position (product.width * (face_count : ℚ)) db ++
      check_face face_count := by
  simp only [validate_placement, check_height, check_width, check_negative,
    check_overlap, check_face]
  cases h : (db.filter (fun q =>
      decide (q.x_position < x_position + product.width * (face_count : ℚ)) &&
      decide (q.x_position ≥ x_position - product.width * (face_count : ℚ)))).find? (fun q =>
      !(decide (x_position ≥ q.x_position + q.occupied_width) ||
        decide (x_position + product.width * (face_count : ℚ) ≤ q.x_position))) <;>
    split_ifs <;> simp [h]

/-- Claim C2 (confirmed).  On every persist, `ProductPlacement.save` replaces
`x_position` by its value rounded to one decimal place and
`occupied_width` by `round_decimal(product.width * face_count)`; the value
of `occupied_width` supplied by the caller is ignored entirely. -/
theorem C2_save_normalizes (p : ProductPlacement) :
    (save p).x_position = round_decimal p.x_position ∧
    (save p).occupied_width = round_decimal (p.product.width * (p.face_count : ℚ)) ∧
    ∀ w : ℚ, save { p with occupied_width := w } = save p :=
  ⟨rfl, rfl, fun _ => rfl⟩

/-- Claim C3 (confirmed).  For intervals derived from the rounded
start and end positions, the overlap predicate holds iff
`A.end > B.start + 0.05` and `A.start < B.end - 0.05`; intervals that
exactly touch (`A.end = B.start`) are never overlapping. -/
theorem C3_overlap_predicate (p q : ProductPlacement) :
    (is_overlapping (placement_interval p) (placement_interval q) = true ↔
      ((placement_interval p).2 > (placement_interval q).1 + 1/20 ∧
       (placement_interval p).1 < (placement_interval q).2 - 1/20)) ∧
    ((placement_interval p).2 = (placement_interval q).1 →
      is_overlapping (placement_interval p) (placement_interval q) = false) := by
  constructor
  · simp [is_overlapping, tolerance]
  · intro h
    have hnot : ¬ ((placement_interval p).2 > (placement_interval q).1 + tolerance) := by
      rw [h]
      simp only [tolerance]
      intro hgt
      linarith
    simp [is_overlapping, hnot]

/-- A placement of width 10 ending exactly where the next one starts. -/
def touchLeft : ProductPlacement := ⟨1, ⟨"T1", 10, 5⟩, 0, 1, 10, 1⟩

/-- A placement starting exactly at the end position of `touchLeft`. -/
def touchRight : ProductPlacement := ⟨2, ⟨"T2", 5, 5⟩, 10, 1, 5, 2⟩

/-- Witness for C3: two placements whose intervals exactly touch are not
overlapping. -/
theorem C3_overlap_predicate_witness :
    is_overlapping (placement_interval touchLeft) (placement_interval touchRight) = false :=
  (C3_overlap_predicate touchLeft touchRight).2
    (by norm_num [touchLeft, touchRight, placement_interval, round_decimal])

/-- Claim C9 (counterexample).  `-0.25` is representable as a decimal string,
and `round_decimal (-0.25) = -0.3`: the tie is resolved away from zero,
i.e. *towards* the lower of the two candidates `-0.3` and `-0.2`, whereas
the claim wording, ties away from the lower value, predicts `-0.2`. -/
theorem C9_counterexample :
    round_decimal (-(1/4)) = -(3/10) ∧ (-(3/10) : ℚ) ≠ -(1/5) := by
  constructor
  · norm_num [round_decimal]
  · norm_num

/-- Claim C9 (amended theorem).  `round_decimal` rounds to exactly one decimal
place with ties away from zero: for nonnegative `v` the result is a
multiple of `1/10` within `1/20` of `v`, exact ties round up (away from the
lower candidate), negative arguments are rounded as the negation of their
absolute value, and `round_decimal 0.25 = 0.3`, `round_decimal 0.15 = 0.2`. -/
theorem C9_round_half_up (v : ℚ) (hv : 0 ≤ v) :
    (∃ n : ℤ, round_decimal v = (n : ℚ) / 10) ∧
    |round_decimal v - v| ≤ 1/20 ∧
    (∀ k : ℕ, v = (2 * (k : ℚ) + 1) / 20 → round_decimal v = ((k : ℚ) + 1) / 10) ∧
    (∀ w : ℚ, w < 0 → round_decimal w = -round_decimal (-w)) ∧
    round_decimal (25/100) = 3/10 ∧ round_decimal (15/100) = 2/10 := by
  have hnot : ¬ v < 0 := not_lt.mpr hv
  have hval : round_decimal v = ((⌊v * 10 + 1/2⌋ : ℚ)) / 10 := by
    simp [round_decimal, hnot]
  have hfl : (⌊v * 10 + 1/2⌋ : ℚ) ≤ v * 10 + 1/2 := Int.floor_le _
  have hfu : v * 10 + 1/2 < (⌊v * 10 + 1/2⌋ : ℚ) + 1 := Int.lt_floor_add_one _
  refine ⟨⟨⌊v * 10 + 1/2⌋, hval⟩, ?_, ?_, ?_, ?_, ?_⟩
  · rw [hval, abs_le]
    constructor <;> [linarith; linarith]
  · intro k hk
    have : v * 10 + 1/2 = ((k : ℤ) + 1 : ℤ) := by
      rw [hk]
      push_cast
      ring
    rw [hval, this, Int.floor_intCast]
    push_cast
    ring
  · intro w hw
    have hw' : ¬ (-w) < 0 := by linarith
    simp [round_decimal, hw, hw']
  · norm_num [round_decimal]
  · norm_num [round_decimal]

/-- Witness for the amended C9 theorem: an exact tie (`0.05`) rounds up to
`0.1`, and a negative argument rounds as the negation of its absolute
value. -/
theorem C9_round_half_up_witness :
    round_decimal (1/20) = 1/10 ∧ round_decimal (-(1/2)) = -round_decimal (1/2) := by
  have h := C9_round_half_up (1/20) (by norm_num)
  have h1 := h.2.2.1 0 (by norm_num)
  have h2 := h.2.2.2.1 (-(1/2)) (by norm_num)
  constructor
  · simpa using h1
  · simpa using h2

/-- A product taller than a 30cm segment, used to trigger several
violations at once. -/
def overHighProduct : Product := ⟨"P", 10, 40⟩

/-- Claim C4 (counterexample).  On a candidate violating the height, width,
coordinate and face-count checks at once, `validate_placement` returns the
violations in the source order height, width, negative-x, face-count — not
in the claimed order with the face-count violation first. -/
theorem C4_counterexample :
    validate_placement 40 30 overHighProduct (-1) 25 [] =
      [Violation.heightExceeds, Violation.widthExceeds, Violation.negativeX,
       Violation.faceTooMany] ∧
    ([Violation.heightExceeds, Violation.widthExceeds, Violation.negativeX,
      Violation.faceTooMany] : List Violation) ≠
      [Violation.faceTooMany, Violation.negativeX, Violation.heightExceeds,
       Violation.widthExceeds] := by
  constructor
  · norm_num [validate_placement, overHighProduct]
  · simp

/-- Claim C4 (amended theorem).  `validate_placement` runs all five checks and
collects every applicable violation without short-circuiting, in the order
height, shelf-width, negative-x, overlap, face-count (not the claimed
order), and returns the empty list iff every individual check passes. -/
theorem C4_validate_collects_all (shelf_width segment_height : ℚ)
    (product : Product) (x_position : ℚ) (face_count : ℤ)
    (db : List ProductPlacement) :
    (validate_placement shelf_width segment_height product x_position face_count db =
      check_height segment_height product ++
      check_width shelf_width x_position (product.width * (face_count : ℚ)) ++
      check_negative x_position ++
      check_overlap x_position (product.width * (face_count : ℚ)) db ++
      check_face face_count) ∧
    (validate_placement shelf_width segment_height product x_position face_count db = [] ↔
      (check_height segment_height product = [] ∧
       check_width shelf_width x_position (product.width * (face_count : ℚ)) = [] ∧
       check_negative x_position = [] ∧
       check_overlap x_position (product.width * (face_count : ℚ)) db = [] ∧
       check_face face_count = [])) := by
  have h := validate_placement_eq_checks shelf_width segment_height product
    x_position face_count db
  refine ⟨h, ?_⟩
  rw [h]
  simp [List.append_eq_nil, and_assoc]

/-- Claim C10 (confirmed).  With no internal fault, the fault-injected
validator coincides with `validate_placement`; with an unexpected fault at
any of the five checks, the caller still receives a plain list: the
violations collected before the fault — a prefix of the fault-free
result — with the generic internal-error entry appended by the
`except Exception` handler. -/
theorem C10_validate_never_raises (shelf_width segment_height : ℚ)
    (product : Product) (x_position : ℚ) (face_count : ℤ)
    (db : List ProductPlacement) (s : CheckStep) :
    validate_placement_with_fault shelf_width segment_height product
      x_position face_count db none =
      validate_placement shelf_width segment_height product x_position face_count db ∧
    ∃ kept rest,
      validate_placement_with_fault shelf_width segment_height product
        x_position face_count db (some s) = kept ++ [Violation.internalError] ∧
      validate_placement shelf_width segment_height product x_position face_count db =
        kept ++ rest := by
  refine ⟨rfl,
    ((check_list shelf_width segment_height product x_position face_count db).take
      (step_index s)).flatten,
    ((check_list shelf_width segment_height product x_position face_count db).drop
      (step_index s)).flatten, rfl, ?_⟩
  rw [← List.flatten_append, List.take_append_drop,
    validate_placement_eq_checks shelf_width segment_height product x_position
      face_count db]
  simp [check_list, List.append_assoc]

/-- Existing placement spanning `[0, 30)`: product 30cm wide, one face. -/
def wideProduct : Product := ⟨"A", 30, 10⟩

/-- A narrow product, 2cm wide. -/
def slimProduct : Product := ⟨"B", 2, 10⟩

/-- The committed wide placement occupying `[0, 30)` on the segment. -/
def widePlacement : ProductPlacement := ⟨1, wideProduct, 0, 1, 30, 1⟩

/-- The narrow placement legally committed at `[31, 33)`. -/
def slimPlacement : ProductPlacement := ⟨2, slimProduct, 31, 1, 2, 2⟩

/-- The row of the narrow placement after the move to `x = 25`: interval
`[25, 27)`, inside the wide interval `[0, 30)`. -/
def slimMoved : ProductPlacement := ⟨3, slimProduct, 25, 1, 2, 2⟩

/-- Claim C1 (code evaluated at the failing input).  On a 40cm shelf with a
30cm-wide placement at `x = 0`, moving the 2cm placement to `x = 25`
passes `validate_placement` (its overlap pre-filter only inspects
placements with `x_position ≥ x - occupied_width = 23`, so the wide
neighbour at `x = 0` is never compared) and `move_placement` commits the
move; the committed rows contain two placements whose intervals overlap by
2cm, far beyond the 0.05cm tolerance of the overlap
predicate. -/
theorem C1_overlap_committed :
    validate_placement 40 30 slimProduct 25 1 [widePlacement] = [] ∧
    move_placement [widePlacement, slimPlacement] slimPlacement 40 30 25 none 3 =
      .ok [widePlacement, slimMoved] ∧
    is_overlapping (placement_interval slimMoved) (placement_interval widePlacement) =
      true := by
  have hval : validate_placement 40 30 slimProduct 25 1 [widePlacement] = [] := by
    norm_num [validate_placement, widePlacement, wideProduct, slimProduct]
  refine ⟨hval, ?_, ?_⟩
  · have hfilter : ([widePlacement, slimPlacement].filter
        (fun q => q.id != slimPlacement.id)) = [widePlacement] := rfl
    simp only [move_placement, Option.getD, hfilter]
    rw [show slimPlacement.product = slimProduct from rfl,
      show slimPlacement.face_count = (1 : ℤ) from rfl, hval]
    norm_num [save, get_occupied_width, round_decimal, slimPlacement, slimMoved,
      slimProduct]
  · norm_num [is_overlapping, placement_interval, round_decimal, tolerance,
      slimMoved, slimPlacement, widePlacement, slimProduct, wideProduct]

/-- Claim C5 (confirmed).  When a move/resize fails validation: at the model
level (`update_position`), the in-memory `x_position` and
`face_count` are restored to their pre-attempt values, its persisted row is
untouched and the violations are returned with `success = False`; at the
service level (`move_placement`), the raised violations roll the whole
transaction back, leaving the stored rows unchanged. -/
theorem C5_failed_move_rolls_back (p : ProductPlacement)
    (others db : List ProductPlacement) (shelf_width segment_height new_x : ℚ)
    (new_fc : Option ℤ) (fresh_id : ℕ) :
    ((update_position p others shelf_width segment_height new_x new_fc).success = false →
      (update_position p others shelf_width segment_height new_x new_fc).placement = p ∧
      (update_position p others shelf_width segment_height new_x new_fc).rows =
        others ++ [p] ∧
      (update_position p others shelf_width segment_height new_x new_fc).errors ≠ []) ∧
    (∀ errs, move_placement db p shelf_width segment_height new_x new_fc fresh_id =
        .error errs →
      move_placement_rows db p shelf_width segment_height new_x new_fc fresh_id = db ∧
      errs ≠ []) := by
  constructor
  · simp only [update_position]
    split
    · intro hfail
      simp at hfail
    · next h =>
      intro _
      refine ⟨rfl, rfl, ?_⟩
      simpa [List.isEmpty_iff] using h
  · intro errs herr
    simp only [move_placement] at herr
    split at herr
    · exact absurd herr (by simp)
    · next h =>
      injection herr with herrs
      constructor
      · simp only [move_placement_rows, move_placement]
        rw [if_neg h]
      · rw [← herrs]
        simpa [List.isEmpty_iff] using h

/-- A product too tall for the 30cm segment used in the C5 witness. -/
def tallProduct : Product := ⟨"T", 10, 40⟩

/-- A committed placement of `tallProduct` (imagining the segment height was
lowered after placement), used to make any move attempt fail validation. -/
def tallPlacement : ProductPlacement := ⟨7, tallProduct, 0, 1, 10, 1⟩

/-- Witness for C5: a failing move leaves the in-memory placement and the
stored rows unchanged at both the model and the service level. -/
theorem C5_failed_move_rolls_back_witness :
    (update_position tallPlacement [] 40 30 5 none).placement = tallPlacement ∧
    move_placement_rows [tallPlacement] tallPlacement 40 30 5 none 9 =
      [tallPlacement] := by
  have h := C5_failed_move_rolls_back tallPlacement [] [tallPlacement] 40 30 5 none 9
  have hsucc : (update_position tallPlacement [] 40 30 5 none).success = false := by
    norm_num [update_position, clean, find_overlapping_placement, get_occupied_width,
      round_decimal, tallPlacement, tallProduct]
  have hmove : move_placement [tallPlacement] tallPlacement 40 30 5 none 9 =
      .error [Violation.heightExceeds] := by
    have hfilter : ([tallPlacement].filter (fun q => q.id != tallPlacement.id)) =
        [] := rfl
    simp only [move_placement, Option.getD, hfilter]
    norm_num [validate_placement, tallPlacement, tallProduct]
  exact ⟨(h.1 hsucc).1, (h.2 [Violation.heightExceeds] hmove).1⟩

/-- Claim C6 (confirmed).  An end position exactly equal to the shelf width
passes the width check and, with all other checks passing, is legal in both
the service validator and the model-level `clean`; an end position of
`shelf.width + 0.01` produces a width violation in both. -/
theorem C6_exact_fit_boundary (shelf_width segment_height : ℚ)
    (product : Product) (x : ℚ) (fc : ℤ) (db : List ProductPlacement)
    (p : ProductPlacement) (others : List ProductPlacement) :
    (x + product.width * (fc : ℚ) = shelf_width →
      product.height ≤ segment_height → 0 ≤ x → 1 ≤ fc → fc ≤ 20 →
      check_overlap x (product.width * (fc : ℚ)) db = [] →
      validate_placement shelf_width segment_height product x fc db = []) ∧
    (x + product.width * (fc : ℚ) = shelf_width + 1/100 →
      Violation.widthExceeds ∈
        validate_placement shelf_width segment_height product x fc db) ∧
    (round_decimal (round_decimal p.x_position +
        get_occupied_width p.product p.face_count) = shelf_width →
      p.product.height ≤ segment_height →
      find_overlapping_placement
        { p with x_position := round_decimal p.x_position } others = none →
      clean p others shelf_width segment_height = []) ∧
    (round_decimal (round_decimal p.x_position +
        get_occupied_width p.product p.face_count) = shelf_width + 1/100 →
      Violation.widthExceeds ∈ clean p others shelf_width segment_height) := by
  refine ⟨?_, ?_, ?_, ?_⟩
  · intro hend hh hx hfc1 hfc2 hov
    rw [validate_placement_eq_checks, hov]
    simp [check_height, check_width, check_negative, check_face, not_lt.mpr hh,
      not_lt.mpr hx, not_lt.mpr hfc1, not_lt.mpr hfc2, hend]
  · intro hend
    rw [validate_placement_eq_checks]
    have hw : check_width shelf_width x (product.width * (fc : ℚ)) =
        [Violation.widthExceeds] := by
      unfold check_width
      rw [if_pos (by linarith)]
    simp [hw]
  · intro hend hh hov
    simp only [clean, hov, hend]
    simp [not_lt.mpr hh]
  · intro hend
    simp only [clean, hend]
    have hgt : shelf_width + 1/100 > shelf_width := by linarith
    simp only [if_pos hgt]
    cases find_overlapping_placement
        { p with x_position := round_decimal p.x_position } others <;> simp

/-- The 10cm-wide, 20cm-tall product of the C6 witness. -/
def boundaryProduct : Product := ⟨"W", 10, 20⟩

/-- Two faces of `boundaryProduct` at `x = 20`: end position exactly 40. -/
def boundaryPlacement : ProductPlacement := ⟨4, boundaryProduct, 20, 2, 20, 1⟩

/-- Witness for C6: on a 40cm shelf the end position 40 is legal in both
validators, while on a 39.99cm shelf the same candidate (end position
`39.99 + 0.01`) draws a width violation from both. -/
theorem C6_exact_fit_boundary_witness :
    validate_placement 40 30 boundaryProduct 20 2 [] = [] ∧
    Violation.widthExceeds ∈ validate_placement (3999/100) 30 boundaryProduct 20 2 [] ∧
    clean boundaryPlacement [] 40 30 = [] ∧
    Violation.widthExceeds ∈ clean boundaryPlacement [] (3999/100) 30 := by
  have hA := C6_exact_fit_boundary 40 30 boundaryProduct 20 2 [] boundaryPlacement []
  have hB := C6_exact_fit_boundary (3999/100) 30 boundaryProduct 20 2 []
    boundaryPlacement []
  have hend : round_decimal (round_decimal boundaryPlacement.x_position +
      get_occupied_width boundaryPlacement.product boundaryPlacement.face_count) =
      (40 : ℚ) := by
    norm_num [boundaryPlacement, boundaryProduct, get_occupied_width, round_decimal]
  refine ⟨hA.1 (by norm_num [boundaryProduct]) (by norm_num [boundaryProduct])
      (by norm_num) (by norm_num) (by norm_num) (by simp [check_overlap]),
    hB.2.1 (by norm_num [boundaryProduct]),
    hA.2.2.1 hend (by norm_num [boundaryPlacement, boundaryProduct]) rfl,
    hB.2.2.2 (by rw [hend]; norm_num)⟩

/-- Inserting into the sorted accumulator is a permutation of consing. -/
theorem insert_by_x_perm (p : ProductPlacement) :
    ∀ l : List ProductPlacement, (insert_by_x l p).Perm (p :: l) := by
  intro l
  induction l with
  | nil => simp [insert_by_x]
  | cons q rest ih =>
    by_cases h : q.x_position ≤ p.x_position
    · simp only [insert_by_x, if_pos h]
      exact (ih.cons q).trans (List.Perm.swap p q rest)
    · simp [insert_by_x, h]

/-- The stable sort by `x_position` is a permutation of its input. -/
theorem sort_by_x_perm (l : List ProductPlacement) : (sort_by_x l).Perm l := by
  suffices h : ∀ (l acc : List ProductPlacement),
      (l.foldl insert_by_x acc).Perm (acc ++ l) by
    simpa [sort_by_x] using h l []
  intro l
  induction l with
  | nil => intro acc; simp
  | cons p rest ih =>
    intro acc
    simp only [List.foldl_cons]
    exact ((ih (insert_by_x acc p)).trans
      (((insert_by_x_perm p acc).append_right rest).trans List.perm_middle.symm))

/-- The spread walk preserves the occupied width of every item (and hence their
sum) as long as the stored widths already satisfy the recomputation
invariant that `save` re-establishes. -/
theorem spread_walk_occupied_sum (gap : ℚ) :
    ∀ (cur : ℚ) (l : List ProductPlacement),
      (∀ p ∈ l, p.occupied_width = round_decimal (p.product.width * (p.face_count : ℚ))) →
      ((spread_walk gap cur l).map (·.occupied_width)).sum =
        (l.map (·.occupied_width)).sum := by
  intro cur l
  induction l generalizing cur with
  | nil => intro _; simp [spread_walk]
  | cons p rest ih =>
    intro hcons
    have hp := hcons p (by simp)
    have hrest : ∀ q ∈ rest,
        q.occupied_width = round_decimal (q.product.width * (q.face_count : ℚ)) :=
      fun q hq => hcons q (by simp [hq])
    by_cases h : |round_decimal cur - p.x_position| > 1/10
    · simp only [spread_walk, if_pos h]
      have how : (save { p with x_position := round_decimal cur }).occupied_width =
          p.occupied_width := by
        simp [save, get_occupied_width]
        exact hp.symm
      simp [how, ih _ hrest]
    · simp only [spread_walk, if_neg h]
      simp [ih _ hrest]

/-- The 10cm-wide product of the spread scenario. -/
def spreadProduct : Product := ⟨"S", 10, 5⟩

/-- First spread-scenario placement, at `x = 0` (span `[0, 10)`). -/
def spreadP1 : ProductPlacement := ⟨11, spreadProduct, 0, 1, 10, 1⟩

/-- Second spread-scenario placement, at `x = 8` (span `[8, 18)`,
overlapping the first). -/
def spreadP2 : ProductPlacement := ⟨12, spreadProduct, 8, 1, 10, 2⟩

/-- First scenario placement after the spread walk: moved to `x = 5`. -/
def spreadM1 : ProductPlacement := ⟨11, spreadProduct, 5, 1, 10, 1⟩

/-- Second scenario placement after the spread walk: moved to `x = 25`. -/
def spreadM2 : ProductPlacement := ⟨12, spreadProduct, 25, 1, 10, 2⟩

/-- Claim C7 (counterexample).  `resolve(strategy=spread)` on two 10cm-wide
placements in a 40cm segment puts the first item at
`x = gap/2 = ((40-20)/2)/2 = 5.0`, not at `x = 10.0` as the claim states. -/
theorem C7_counterexample :
    (fix_overlaps_spread 40 [spreadP1, spreadP2]).map (fun l => l.map (·.x_position)) =
      some [5, 25] ∧ (5 : ℚ) ≠ 10 := by
  constructor
  · norm_num [fix_overlaps_spread, sort_by_x, insert_by_x, spread_walk, save,
      get_occupied_width, round_decimal, spreadP1, spreadP2, spreadProduct]
  · norm_num

/-- Claim C7 (amended theorem).  Under the spread strategy the target
positions follow `gap = (shelf.width - Σ occupied_width) / count`, with the
first target at `gap/2` and each next target advanced by
`occupied_width + gap` in ascending `x_position` order (an item is only
re-positioned when its rounded target differs from its current position by
more than 0.1cm); total occupied width is conserved whenever the stored
widths satisfy the recomputation invariant, and on two 10cm-wide placements
in a 40cm segment the first item ends up at `x = 5.0`. -/
theorem C7_spread_formula (shelf_width : ℚ) (placements out : List ProductPlacement)
    (hconsistent : ∀ p ∈ placements,
      p.occupied_width = round_decimal (p.product.width * (p.face_count : ℚ)))
    (hout : fix_overlaps_spread shelf_width placements = some out) :
    (out.map (·.occupied_width)).sum = (placements.map (·.occupied_width)).sum ∧
    fix_overlaps_spread 40 [spreadP1, spreadP2] = some [spreadM1, spreadM2] ∧
    spreadM1.x_position = ((40 - 20) / 2) / 2 ∧
    spreadM2.x_position = spreadM1.x_position + spreadM1.occupied_width +
      (40 - 20) / 2 ∧
    ([spreadM1, spreadM2].map (·.occupied_width)).sum =
      ([spreadP1, spreadP2].map (·.occupied_width)).sum := by
  refine ⟨?_, ?_, ?_, ?_, ?_⟩
  · simp only [fix_overlaps_spread] at hout
    split at hout
    · exact absurd hout (by simp)
    · have hsorted : ∀ p ∈ sort_by_x placements,
          p.occupied_width = round_decimal (p.product.width * (p.face_count : ℚ)) :=
        fun p hp => hconsistent p ((sort_by_x_perm placements).mem_iff.mp hp)
      injection hout with hout
      rw [← hout, spread_walk_occupied_sum _ _ _ hsorted]
      exact ((sort_by_x_perm placements).map (·.occupied_width)).sum_eq
  · norm_num [fix_overlaps_spread, sort_by_x, insert_by_x, spread_walk, save,
      get_occupied_width, round_decimal, spreadP1, spreadP2, spreadProduct,
      spreadM1, spreadM2]
  · norm_num [spreadM1]
  · norm_num [spreadM1, spreadM2]
  · norm_num [spreadM1, spreadM2, spreadP1, spreadP2]

/-- Witness for the amended C7 theorem, at the two-placement scenario: the
spread resolution conserves the total occupied width. -/
theorem C7_spread_formula_witness :
    (([spreadM1, spreadM2] : List ProductPlacement).map (·.occupied_width)).sum =
      (([spreadP1, spreadP2] : List ProductPlacement).map (·.occupied_width)).sum := by
  have hcons : ∀ p ∈ ([spreadP1, spreadP2] : List ProductPlacement),
      p.occupied_width = round_decimal (p.product.width * (p.face_count : ℚ)) := by
    intro p hp
    simp only [List.mem_cons, List.not_mem_nil, or_false] at hp
    rcases hp with hp | hp <;> subst hp <;>
      norm_num [spreadP1, spreadP2, spreadProduct, round_decimal]
  have hout : fix_overlaps_spread 40 [spreadP1, spreadP2] = some [spreadM1, spreadM2] := by
    norm_num [fix_overlaps_spread, sort_by_x, insert_by_x, spread_walk, save,
      get_occupied_width, round_decimal, spreadP1, spreadP2, spreadProduct,
      spreadM1, spreadM2]
  exact (C7_spread_formula 40 [spreadP1, spreadP2] [spreadM1, spreadM2] hcons hout).1

/-- Claim C8 (confirmed).  When the total occupied width of the placements exceeds
the shelf width, the spread strategy aborts with the capacity error and the
rows of the segment are left untouched. -/
theorem C8_spread_capacity_aborts (shelf_width : ℚ)
    (placements : List ProductPlacement)
    (hover : (placements.map (·.occupied_width)).sum > shelf_width) :
    fix_overlaps_spread shelf_width placements = none ∧
    spread_rows shelf_width placements = placements := by
  have h : fix_overlaps_spread shelf_width placements = none := by
    simp only [fix_overlaps_spread]
    rw [if_pos hover]
  exact ⟨h, by simp [spread_rows, h]⟩

/-- A single 50cm-wide placement, overfilling a 40cm shelf. -/
def overfullPlacement : ProductPlacement := ⟨21, ⟨"G", 50, 5⟩, 0, 1, 50, 1⟩

/-- Witness for C8: spread on an overfull segment aborts without mutation. -/
theorem C8_spread_capacity_aborts_witness :
    fix_overlaps_spread 40 [overfullPlacement] = none ∧
    spread_rows 40 [overfullPlacement] = [overfullPlacement] :=
  C8_spread_capacity_aborts 40 [overfullPlacement] (by norm_num [overfullPlacement])

end FlexiShelf
